import Mathlib

/-!
Shallow embedding of `reagent/gym/envs/pomdp/state_embed_env.py`
(`StateEmbedEnvironment`): a gym environment adapter that augments raw
observations with a fixed-size embedding of the recent (observation, action)
history, produced by an external sequence model (`MemoryNetwork`, "mdnrnn").

Numeric scalars are modelled as rationals (`ℚ`); numpy / torch arrays as
nested lists (`Vec`, `Mat`, `Tensor3`).  Python exceptions are modelled with
`Except String`.  The sequence model's mutable `training` flag is threaded
explicitly as a `Bool` through `embed_state`, `reset` and `step`.
-/

namespace StateEmbedEnv

/-- A 1-D numeric array (e.g. one raw observation, one converted action). -/
abbrev Vec := List ℚ

/-- A 2-D numeric array: a list of rows. -/
abbrev Mat := List Vec

/-- A 3-D numeric array, e.g. a (seq_len, batch, features) tensor. -/
abbrev Tensor3 := List Mat

/-- The kind of the inner environment's `action_space`:
`gym.spaces.Discrete(n)`, `gym.spaces.Box` with `shape[0] = dim`, or any
other space class (e.g. `MultiDiscrete`), which `__init__` does not handle. -/
inductive GymActionSpace : Type where
  | discrete (n : Nat)
  | box (dim : Nat)
  | other
deriving DecidableEq, Repr

/-- The fields `StateEmbedEnvironment.__init__` computes and stores.
`is_discrete_action` and `action_dim` are `Option`s because the source's
`if/elif` over the action-space class has no `else` branch: for an
unsupported space kind neither attribute is ever assigned. -/
structure InitResult : Type where
  max_embed_seq_len : Nat
  embed_size : Nat
  raw_state_dim : Nat
  state_dim : Nat
  is_discrete_action : Option Bool
  action_dim : Option Nat
  /-- the `low` scalar of the derived observation-space `Box`; `none` models
  `np.min` raising on an empty bounds array -/
  obs_space_low : Option ℚ
  /-- the `high` scalar of the derived observation-space `Box` -/
  obs_space_high : Option ℚ
  obs_space_shape : Nat
  cur_raw_state : Option Vec
  recent_states : Mat
  recent_actions : Mat
deriving DecidableEq, Repr

/-- Embedding of `StateEmbedEnvironment.__init__`.  Arguments mirror the
constructor's inputs: the inner environment is represented by its
action space and the elementwise `low`/`high` bounds of its observation
space (so `raw_state_dim = env.observation_space.shape[0]` is
`envObsLow.length`); the `MemoryNetwork` by its `num_hiddens`.
The constructor is total: it raises on no input, in particular not on an
unsupported action-space kind. -/
def stateEmbedInit (envActionSpace : GymActionSpace) (envObsLow envObsHigh : Vec)
    (num_hiddens max_embed_seq_len : Nat)
    (state_min_value state_max_value : Option ℚ) : InitResult :=
  let raw_state_dim := envObsLow.length
  let embed_size := num_hiddens
  let state_dim := embed_size + raw_state_dim
  let discFields : Option Bool × Option Nat :=
    match envActionSpace with
    | .discrete n => (some true, some n)
    | .box dim => (some false, some dim)
    | .other => (none, none)
  let bounds : Option ℚ × Option ℚ :=
    if state_min_value.isNone ∨ state_max_value.isNone then
      (envObsLow.min?, envObsHigh.max?)
    else
      (state_min_value, state_max_value)
  { max_embed_seq_len := max_embed_seq_len
    embed_size := embed_size
    raw_state_dim := raw_state_dim
    state_dim := state_dim
    is_discrete_action := discFields.1
    action_dim := discFields.2
    obs_space_low := bounds.1
    obs_space_high := bounds.2
    obs_space_shape := state_dim
    cur_raw_state := none
    recent_states := []
    recent_actions := [] }

/-- Static configuration of a successfully constructed adapter whose action
space was recognised as discrete or box: the dimensions and the external
sequence model.  `forward` is the model's forward pass on a batched
time-major (observation, action) sequence, returning the
`all_steps_lstm_hidden` tensor of shape (seq_len, batch, num_hiddens);
`Except.error` models the forward pass raising. -/
structure Config : Type where
  raw_state_dim : Nat
  action_dim : Nat
  is_discrete_action : Bool
  max_embed_seq_len : Nat
  embed_size : Nat
  forward : Tensor3 → Tensor3 → Except String Tensor3

/-- The last `n` elements of a list, in order. -/
def lastN (n : Nat) (l : List α) : List α :=
  l.drop (l.length - n)

/-- `collections.deque(maxlen := m).append`: push on the right, evicting from
the left so that at most `m` elements remain. -/
def dequeAppend (m : Nat) (xs : List α) (x : α) : List α :=
  lastN m (xs ++ [x])

/-- `action_np = np.zeros(n); action_np[i] = 1.0` for a valid index `i < n`. -/
def oneHot (n i : Nat) : Vec :=
  (List.range n).map (fun j => if j = i then (1 : ℚ) else 0)

/-- An action passed to `step`: either a discrete index or a continuous
numeric vector, matching the inner environment's action-space kind. -/
inductive GymAction : Type where
  | disc (i : Nat)
  | cont (v : Vec)
deriving DecidableEq, Repr

/-- The action conversion at the top of `StateEmbedEnvironment.step`: one-hot
for a discrete action space (an out-of-range index models the numpy
`IndexError`), identity for a continuous one.  An action whose shape does not
match the space kind is outside the gym API contract; it is mapped to an
error. -/
def convertAction (cfg : Config) : GymAction → Except String Vec
  | .disc i =>
      if cfg.is_discrete_action then
        if i < cfg.action_dim then .ok (oneHot cfg.action_dim i)
        else .error "IndexError"
      else .error "unsupported action for continuous space"
  | .cont v =>
      if cfg.is_discrete_action then .error "unsupported action for discrete space"
      else .ok v

/-- The model-input construction inside `embed_state`: for an empty history,
a single all-zero time step `np.zeros((1, raw_state_dim))` /
`np.zeros((1, action_dim))`; otherwise the buffers' contents,
`np.array(list(self.recent_states))` / `np.array(list(self.recent_actions))`. -/
def buildModelInput (cfg : Config) (recent_states recent_actions : Mat) : Mat × Mat :=
  if recent_states.length = 0 then
    ([List.replicate cfg.raw_state_dim (0 : ℚ)],
     [List.replicate cfg.action_dim (0 : ℚ)])
  else
    (recent_states, recent_actions)

/-- `torch.tensor(x).unsqueeze(1)`: insert a singleton batch dimension,
turning a (seq_len, features) array into (seq_len, 1, features). -/
def unsqueeze1 (m : Mat) : Tensor3 :=
  m.map (fun row => [row])

/-- `.squeeze()` applied to one time step of `all_steps_lstm_hidden`, of
shape (batch, num_hiddens): for the contract's singleton batch it drops the
batch dimension and yields the hidden vector. -/
def squeezeBatch : Mat → Vec
  | [h] => h
  | m => m.flatten

/-- The tail of `embed_state` after the forward pass: index
`all_steps_lstm_hidden[-1]` (an empty tensor models the Python `IndexError`
of `[-1]`), squeeze, `np.hstack` with the raw state, then
`self.mdnrnn.mdnrnn.train(old_mdnrnn_mode)`.  Returns the result together
with the model's training-mode flag after the call.  On the error paths the
`train(old)` restoration line is never reached, so the flag keeps the value
`false` set by `eval()`. -/
def finishEmbed (old_mdnrnn_mode : Bool) (state : Vec) :
    Except String Tensor3 → Except String Vec × Bool
  | .error e => (.error e, false)
  | .ok all_steps_lstm_hidden =>
      match all_steps_lstm_hidden.getLast? with
      | none => (.error "IndexError", false)
      | some lastStep =>
          let hidden_embed := squeezeBatch lastStep
          let state_embed := hidden_embed ++ state
          (.ok state_embed, old_mdnrnn_mode)

/-- Embedding of `StateEmbedEnvironment.embed_state`.  `mode` is the sequence
model's `training` flag at entry; the returned `Bool` is the flag at exit.
The leading `assert len(self.recent_states) == len(self.recent_actions)`
fires before the flag is saved or changed, so on that path the flag is
untouched. -/
def embed_state (cfg : Config) (mode : Bool) (recent_states recent_actions : Mat)
    (state : Vec) : Except String Vec × Bool :=
  if recent_states.length = recent_actions.length then
    let old_mdnrnn_mode := mode
    -- self.mdnrnn.mdnrnn.eval() sets the flag to false
    let input := buildModelInput cfg recent_states recent_actions
    finishEmbed old_mdnrnn_mode state
      (cfg.forward (unsqueeze1 input.1) (unsqueeze1 input.2))
  else
    (.error "AssertionError", mode)

/-- The mutable state of one adapter instance: `cur_raw_state`, the two
history deques, and the external model's training-mode flag (owned by the
model but threaded here because `embed_state` mutates and restores it). -/
structure AdapterState : Type where
  cur_raw_state : Option Vec
  recent_states : Mat
  recent_actions : Mat
  mode : Bool
deriving DecidableEq, Repr

/-- Embedding of `StateEmbedEnvironment.reset`.  `innerObs` is the raw
observation returned by the delegated `self.env.reset()`. -/
def reset (cfg : Config) (s : AdapterState) (innerObs : Vec) :
    AdapterState × Except String Vec :=
  let er := embed_state cfg s.mode [] [] innerObs
  ({ cur_raw_state := some innerObs
     recent_states := []
     recent_actions := []
     mode := er.2 },
   er.1)

/-- Embedding of `StateEmbedEnvironment.step`.  `inner` is the
`(next_raw_state, reward, terminal, info)` tuple returned by the delegated
`self.env.step(action)`; the info mapping's type `I` is opaque to the
adapter.  Calling `step` before any `reset` (i.e. with
`cur_raw_state = none`) is undefined behaviour per the spec and modelled as
an error that leaves the state unchanged. -/
def step {I : Type} (cfg : Config) (s : AdapterState) (action : GymAction)
    (inner : Vec × ℚ × Bool × I) :
    AdapterState × Except String (Vec × ℚ × Bool × I) :=
  match convertAction cfg action with
  | .error e => (s, .error e)
  | .ok action_np =>
      match s.cur_raw_state with
      | none => (s, .error "step before reset is undefined")
      | some cur =>
          let recent_states' := dequeAppend cfg.max_embed_seq_len s.recent_states cur
          let recent_actions' := dequeAppend cfg.max_embed_seq_len s.recent_actions action_np
          -- inner = (next_raw_state, reward, terminal, info)
          let er := embed_state cfg s.mode recent_states' recent_actions' inner.1
          let s' : AdapterState :=
            { cur_raw_state := some inner.1
              recent_states := recent_states'
              recent_actions := recent_actions'
              mode := er.2 }
          match er.1 with
          | .error e => (s', .error e)
          | .ok emb => (s', .ok (emb, inner.2.1, inner.2.2.1, inner.2.2.2))

/-- Adapter states reachable by any sequence of `reset()` and `step()` calls
from a freshly constructed instance (empty deques, `cur_raw_state = None`,
any initial model mode), with arbitrary inner-environment responses. -/
inductive Reachable (cfg : Config) : AdapterState → Prop where
  | init (m : Bool) :
      Reachable cfg ⟨none, [], [], m⟩
  | reset_step {s : AdapterState} (hs : Reachable cfg s) (innerObs : Vec) :
      Reachable cfg (StateEmbedEnv.reset cfg s innerObs).1
  | env_step {s : AdapterState} (hs : Reachable cfg s) (a : GymAction)
      (inner : Vec × ℚ × Bool × Unit) :
      Reachable cfg (StateEmbedEnv.step cfg s a inner).1

/-! ### Concrete instances used by witnesses and counterexamples -/

/-- A sequence model that never raises: it returns one singleton-batch hidden
state `[0]` per input time step (so `num_hiddens = 1`). -/
def demoForward : Tensor3 → Tensor3 → Except String Tensor3 :=
  fun s _a => .ok (s.map (fun _ => [[(0 : ℚ)]]))

/-- A small adapter configuration matching the spec's scenario:
`max_embed_seq_len = 3`, `raw_state_dim = 2`, discrete `action_dim = 2`. -/
def demoCfg : Config :=
  { raw_state_dim := 2
    action_dim := 2
    is_discrete_action := true
    max_embed_seq_len := 3
    embed_size := 1
    forward := demoForward }

/-- An adapter configuration whose sequence model's forward pass raises. -/
def raisingCfg : Config :=
  { raw_state_dim := 2
    action_dim := 2
    is_discrete_action := true
    max_embed_seq_len := 3
    embed_size := 1
    forward := fun _ _ => .error "RuntimeError" }

/-- The literal reading of the claimed scenario: `reset()` (inner reset
observation `[0, 0]`) followed by three `step(0)` calls whose inner step
observations are `[1, 1]`, `[2, 2]`, `[3, 3]`. -/
def traceClaim3 : AdapterState :=
  let s0 : AdapterState := ⟨none, [], [], true⟩
  let s1 := (reset demoCfg s0 [0, 0]).1
  let s2 := (step demoCfg s1 (.disc 0) ([1, 1], 0, false, ())).1
  let s3 := (step demoCfg s2 (.disc 0) ([2, 2], 0, false, ())).1
  (step demoCfg s3 (.disc 0) ([3, 3], 0, false, ())).1

/-- The amended scenario: `reset()` returning inner observation `[1, 1]`
followed by two `step(0)` calls with inner observations `[2, 2]`, `[3, 3]`. -/
def traceAmended3 : AdapterState :=
  let s0 : AdapterState := ⟨none, [], [], true⟩
  let s1 := (reset demoCfg s0 [1, 1]).1
  let s2 := (step demoCfg s1 (.disc 0) ([2, 2], 0, false, ())).1
  (step demoCfg s2 (.disc 0) ([3, 3], 0, false, ())).1

/-! ### Helper lemmas about the bounded deque -/

theorem lastN_nil (n : Nat) : lastN n ([] : List α) = [] := by
  simp [lastN]

theorem lastN_of_length_le {n : Nat} {l : List α} (h : l.length ≤ n) :
    lastN n l = l := by
  simp [lastN, Nat.sub_eq_zero_of_le h]

theorem length_lastN (n : Nat) (l : List α) :
    (lastN n l).length = min n l.length := by
  simp [lastN]
  omega

theorem lastN_append_lastN (m : Nat) (xs l : List α) :
    lastN m (lastN m xs ++ l) = lastN m (xs ++ l) := by
  by_cases h : xs.length ≤ m
  · rw [lastN_of_length_le h]
  · have hm : m < xs.length := Nat.lt_of_not_le h
    have hk : xs.length - m ≤ xs.length := Nat.sub_le _ _
    unfold lastN
    rw [← List.drop_append_of_le_length hk, List.drop_drop]
    congr 1
    simp [List.length_drop, List.length_append]
    omega

theorem foldl_dequeAppend (m : Nat) (zs ys : List α) :
    ys.foldl (dequeAppend m) (lastN m zs) = lastN m (zs ++ ys) := by
  induction ys generalizing zs with
  | nil => simp
  | cons y ys ih =>
      rw [List.foldl_cons]
      show ys.foldl (dequeAppend m) (lastN m (lastN m zs ++ [y])) = _
      rw [lastN_append_lastN, ih (zs ++ [y]), List.append_assoc]
      rfl

theorem length_dequeAppend (m : Nat) (xs : List α) (x : α) :
    (dequeAppend m xs x).length = min m (xs.length + 1) := by
  simp [dequeAppend, length_lastN]

/-! ### Claim theorems -/

/-- **C7** — For every sequence of more than `max_embed_seq_len` appends to
the (initially empty) history deque, the deque's length equals
`max_embed_seq_len` and it holds exactly the most recent
`max_embed_seq_len` entries in chronological order (oldest evicted first):
the result is the length-`m` suffix of the appended sequence. -/
theorem dequeAppend_bound {α : Type} (m : Nat) (ys : List α)
    (h : m < ys.length) :
    (ys.foldl (dequeAppend m) []).length = m ∧
    ys.foldl (dequeAppend m) [] = ys.drop (ys.length - m) := by
  have h0 : ([] : List α) = lastN m [] := (lastN_nil m).symm
  have hfold : ys.foldl (dequeAppend m) [] = lastN m ys := by
    rw [h0, foldl_dequeAppend]
    rfl
  refine ⟨?_, ?_⟩
  · rw [hfold, length_lastN]
    omega
  · rw [hfold]
    rfl

/-- Witness for C7 at `m = 2`, `ys = [10, 20, 30]`. -/
theorem dequeAppend_bound_witness :
    (2 < ([10, 20, 30] : List Nat).length) ∧
    (([10, 20, 30] : List Nat).foldl (dequeAppend 2) []).length = 2 ∧
    ([10, 20, 30] : List Nat).foldl (dequeAppend 2) [] =
      ([10, 20, 30] : List Nat).drop (([10, 20, 30] : List Nat).length - 2) :=
  ⟨by decide, dequeAppend_bound 2 [10, 20, 30] (by decide)⟩

/-- **C10** — If exactly one of `state_min_value` / `state_max_value` is
supplied at construction, the supplied value is discarded: the constructed
adapter is identical to the one built with neither bound supplied, and both
observation-space bounds are auto-derived as the global min of the inner
environment's `low` array and the global max of its `high` array. -/
theorem init_single_bound_discarded (actionSpace : GymActionSpace)
    (lo hi : Vec) (nh ml : Nat) (v : ℚ) :
    stateEmbedInit actionSpace lo hi nh ml (some v) none =
      stateEmbedInit actionSpace lo hi nh ml none none ∧
    stateEmbedInit actionSpace lo hi nh ml none (some v) =
      stateEmbedInit actionSpace lo hi nh ml none none ∧
    (stateEmbedInit actionSpace lo hi nh ml (some v) none).obs_space_low = lo.min? ∧
    (stateEmbedInit actionSpace lo hi nh ml (some v) none).obs_space_high = hi.max? ∧
    (stateEmbedInit actionSpace lo hi nh ml none (some v)).obs_space_low = lo.min? ∧
    (stateEmbedInit actionSpace lo hi nh ml none (some v)).obs_space_high = hi.max? := by
  refine ⟨?_, ?_, ?_, ?_, ?_, ?_⟩ <;> simp [stateEmbedInit]

/-- **C2** — With an action space that is neither discrete nor a box,
`__init__` completes without raising: the constructor is a total function
and at this input it returns a fully built adapter whose
`is_discrete_action` and `action_dim` were simply never assigned.  This
contradicts the claim that construction fails fast with a configuration
error; the code is the divergent side (the spec explicitly requires
fail-fast). -/
theorem init_other_space_completes :
    stateEmbedInit .other [-1, 1] [1, 2] 4 3 none none =
      { max_embed_seq_len := 3
        embed_size := 4
        raw_state_dim := 2
        state_dim := 6
        is_discrete_action := none
        action_dim := none
        obs_space_low := some (-1)
        obs_space_high := some 2
        obs_space_shape := 6
        cur_raw_state := none
        recent_states := []
        recent_actions := [] } := by
  decide

theorem finishEmbed_ok_mode {mode : Bool} {st : Vec} {r : Except String Tensor3}
    {v : Vec} (h : (finishEmbed mode st r).1 = .ok v) :
    (finishEmbed mode st r).2 = mode := by
  match r with
  | .error e => simp [finishEmbed] at h
  | .ok allH =>
      cases hl : allH.getLast? with
      | none => simp [finishEmbed, hl] at h
      | some lastStep => simp [finishEmbed, hl]

/-- **C1 counterexample** — The claim "the mode flag after the call equals
its value before the call, on all exit paths" is false: with a model whose
forward pass raises and the flag initially `true` (training), `embed_state`
propagates the error with the flag left at `false` (evaluation mode) — the
`train(old_mdnrnn_mode)` restoration line is only reached on the normal
return path. -/
theorem embed_state_mode_not_restored_on_raise :
    (embed_state raisingCfg true [] [] [0, 0]).2 = false ∧
    (embed_state raisingCfg true [] [] [0, 0]).1 = .error "RuntimeError" ∧
    (false : Bool) ≠ true := by
  refine ⟨rfl, rfl, by decide⟩

/-- **C1 (amended)** — After every `embed_state` call that returns normally,
the sequence model's training/evaluation mode flag equals its value
immediately before the call; but if the model's forward pass raises, the
error propagates with the flag left forced to evaluation mode (`false`),
not restored. -/
theorem embed_state_mode_restored_on_success (cfg : Config) (mode : Bool)
    (rs ra : Mat) (st : Vec) :
    (∀ v, (embed_state cfg mode rs ra st).1 = .ok v →
      (embed_state cfg mode rs ra st).2 = mode) ∧
    (∀ e, rs.length = ra.length →
      cfg.forward (unsqueeze1 (buildModelInput cfg rs ra).1)
          (unsqueeze1 (buildModelInput cfg rs ra).2) = .error e →
      embed_state cfg mode rs ra st = (.error e, false)) := by
  constructor
  · intro v hv
    unfold embed_state at hv ⊢
    by_cases hlen : rs.length = ra.length
    · rw [if_pos hlen] at hv ⊢
      exact finishEmbed_ok_mode hv
    · rw [if_neg hlen] at hv
      simp at hv
  · intro e hlen hf
    unfold embed_state
    rw [if_pos hlen]
    show finishEmbed mode st
        (cfg.forward (unsqueeze1 (buildModelInput cfg rs ra).1)
          (unsqueeze1 (buildModelInput cfg rs ra).2)) = _
    rw [hf]
    rfl

/-- Witness for C1 (amended): a successful call with `demoCfg` restores the
flag to `true`; a raising call with `raisingCfg` returns the error with the
flag at `false`. -/
theorem embed_state_mode_restored_on_success_witness :
    ((embed_state demoCfg true [] [] [5, 7]).1 = .ok [0, 5, 7] →
      (embed_state demoCfg true [] [] [5, 7]).2 = true) ∧
    (([] : Mat).length = ([] : Mat).length →
      raisingCfg.forward (unsqueeze1 (buildModelInput raisingCfg [] []).1)
          (unsqueeze1 (buildModelInput raisingCfg [] []).2) = .error "RuntimeError" →
      embed_state raisingCfg true [] [] [5, 7] = (.error "RuntimeError", false)) :=
  ⟨(embed_state_mode_restored_on_success demoCfg true [] [] [5, 7]).1 [0, 5, 7],
   (embed_state_mode_restored_on_success raisingCfg true [] [] [5, 7]).2 "RuntimeError"⟩

/-- **C4** — With an empty history buffer (in particular inside `reset`,
which first clears the buffer), the model receives a single time step of an
all-zero observation of shape `[1, raw_state_dim]` and an all-zero action of
shape `[1, action_dim]` (each then given its singleton batch dimension), and
the computation proceeds exactly as in the non-empty case — no error is
raised for empty history.  With a non-empty buffer, the model receives the
buffer's full ordered snapshot with a singleton batch dimension added to
each element. -/
theorem embed_state_model_input (cfg : Config) (mode : Bool) (st : Vec) :
    (embed_state cfg mode [] [] st =
      finishEmbed mode st
        (cfg.forward (unsqueeze1 [List.replicate cfg.raw_state_dim (0 : ℚ)])
          (unsqueeze1 [List.replicate cfg.action_dim (0 : ℚ)]))) ∧
    (∀ s innerObs, (reset cfg s innerObs).2 = (embed_state cfg s.mode [] [] innerObs).1) ∧
    (∀ rs ra : Mat, rs ≠ [] → rs.length = ra.length →
      embed_state cfg mode rs ra st =
        finishEmbed mode st (cfg.forward (unsqueeze1 rs) (unsqueeze1 ra))) := by
  refine ⟨rfl, fun s innerObs => rfl, fun rs ra hne hlen => ?_⟩
  unfold embed_state
  rw [if_pos hlen]
  have hlen0 : ¬rs.length = 0 := by
    simpa [List.length_eq_zero] using hne
  unfold buildModelInput
  rw [if_neg hlen0]

/-- Witness for C4 at `demoCfg`, empty and one-entry buffers. -/
theorem embed_state_model_input_witness :
    (embed_state demoCfg true [] [] [5, 7] =
      finishEmbed true [5, 7]
        (demoCfg.forward (unsqueeze1 [List.replicate demoCfg.raw_state_dim (0 : ℚ)])
          (unsqueeze1 [List.replicate demoCfg.action_dim (0 : ℚ)]))) ∧
    ((reset demoCfg ⟨none, [], [], true⟩ [5, 7]).2 =
      (embed_state demoCfg true [] [] [5, 7]).1) ∧
    (embed_state demoCfg true [[1, 1]] [[1, 0]] [5, 7] =
      finishEmbed true [5, 7]
        (demoCfg.forward (unsqueeze1 [[1, 1]]) (unsqueeze1 [[1, 0]]))) :=
  ⟨(embed_state_model_input demoCfg true [5, 7]).1,
   (embed_state_model_input demoCfg true [5, 7]).2.1 ⟨none, [], [], true⟩ [5, 7],
   (embed_state_model_input demoCfg true [5, 7]).2.2 [[1, 1]] [[1, 0]]
     (by decide) rfl⟩

/-- **C5** — Whenever the model returns a hidden tensor whose last time step
is a singleton-batch hidden vector `h` of length `embed_size`, and the raw
observation has length `raw_state_dim`, the returned AugmentedState is
exactly `h ++ state`: its length is `embed_size + raw_state_dim`, its first
`embed_size` entries are the model's last-time-step hidden output, and its
remaining entries are the raw observation unchanged. -/
theorem augmented_state_composition (cfg : Config) (mode : Bool)
    (rs ra : Mat) (st : Vec) (allH : Tensor3) (h : Vec)
    (hlen : rs.length = ra.length)
    (hfwd : cfg.forward (unsqueeze1 (buildModelInput cfg rs ra).1)
        (unsqueeze1 (buildModelInput cfg rs ra).2) = .ok allH)
    (hlast : allH.getLast? = some [h])
    (hh : h.length = cfg.embed_size)
    (hst : st.length = cfg.raw_state_dim) :
    (embed_state cfg mode rs ra st).1 = .ok (h ++ st) ∧
    (h ++ st).length = cfg.embed_size + cfg.raw_state_dim ∧
    (h ++ st).take cfg.embed_size = h ∧
    (h ++ st).drop cfg.embed_size = st := by
  refine ⟨?_, ?_, ?_, ?_⟩
  · unfold embed_state
    rw [if_pos hlen]
    show (finishEmbed mode st
        (cfg.forward (unsqueeze1 (buildModelInput cfg rs ra).1)
          (unsqueeze1 (buildModelInput cfg rs ra).2))).1 = _
    rw [hfwd]
    simp [finishEmbed, hlast, squeezeBatch]
  · simp [hh, hst]
  · rw [← hh, List.take_left]
  · rw [← hh, List.drop_left]

/-- Witness for C5 at `demoCfg` with an empty buffer and `st = [5, 7]`. -/
theorem augmented_state_composition_witness :
    (embed_state demoCfg true [] [] [5, 7]).1 = .ok ([0] ++ [5, 7]) ∧
    (([0] : Vec) ++ [5, 7]).length = demoCfg.embed_size + demoCfg.raw_state_dim ∧
    (([0] : Vec) ++ [5, 7]).take demoCfg.embed_size = [0] ∧
    (([0] : Vec) ++ [5, 7]).drop demoCfg.embed_size = [5, 7] :=
  augmented_state_composition demoCfg true [] [] [5, 7] [[[0]]] [0]
    rfl rfl rfl rfl rfl

/-- Characterization of `step` on the non-error path: with a set
`cur_raw_state` and a convertible action, it appends `(cur, anp)` to the
deques, delegates, updates `cur_raw_state` to the inner observation, and
embeds with the updated buffers. -/
theorem step_eq {I : Type} {cfg : Config} {s : AdapterState} {a : GymAction}
    (inner : Vec × ℚ × Bool × I) {cur anp : Vec}
    (hcur : s.cur_raw_state = some cur) (ha : convertAction cfg a = .ok anp) :
    step cfg s a inner =
      (⟨some inner.1,
        dequeAppend cfg.max_embed_seq_len s.recent_states cur,
        dequeAppend cfg.max_embed_seq_len s.recent_actions anp,
        (embed_state cfg s.mode
          (dequeAppend cfg.max_embed_seq_len s.recent_states cur)
          (dequeAppend cfg.max_embed_seq_len s.recent_actions anp) inner.1).2⟩,
       match (embed_state cfg s.mode
          (dequeAppend cfg.max_embed_seq_len s.recent_states cur)
          (dequeAppend cfg.max_embed_seq_len s.recent_actions anp) inner.1).1 with
       | .error e => .error e
       | .ok emb => .ok (emb, inner.2.1, inner.2.2.1, inner.2.2.2)) := by
  simp only [step, hcur, ha]
  split <;> rename_i heq <;> simp [heq]

/-- **C6** — Whenever `step` returns normally, the reward, terminal flag and
info mapping it returns are exactly the ones the inner environment's `step`
returned for that call; only the observation component is replaced. -/
theorem step_reward_terminal_info_passthrough {I : Type} (cfg : Config)
    (s : AdapterState) (a : GymAction) (inner : Vec × ℚ × Bool × I)
    (out : Vec × ℚ × Bool × I) (h : (step cfg s a inner).2 = .ok out) :
    out.2.1 = inner.2.1 ∧ out.2.2.1 = inner.2.2.1 ∧ out.2.2.2 = inner.2.2.2 := by
  rcases ha : convertAction cfg a with e | anp
  · simp [step, ha] at h
  · rcases hcur : s.cur_raw_state with _ | cur
    · simp [step, ha, hcur] at h
    · rw [step_eq inner hcur ha] at h
      rcases hemb : (embed_state cfg s.mode
          (dequeAppend cfg.max_embed_seq_len s.recent_states cur)
          (dequeAppend cfg.max_embed_seq_len s.recent_actions anp) inner.1).1
        with e | emb
      · rw [hemb] at h
        simp at h
      · rw [hemb] at h
        simp only [Except.ok.injEq] at h
        rw [← h]
        exact ⟨rfl, rfl, rfl⟩

/-- Witness for C6: one concrete `step` call from a reset state. -/
theorem step_reward_terminal_info_passthrough_witness :
    ((step demoCfg ⟨some [1, 1], [], [], true⟩ (.disc 0)
        ([2, 2], (5 : ℚ), true, (42 : Nat))).2 =
      .ok ([0, 2, 2], (5 : ℚ), true, (42 : Nat))) ∧
    (([0, 2, 2], (5 : ℚ), true, (42 : Nat)).2.1 = (5 : ℚ) ∧
     (([0, 2, 2], (5 : ℚ), true, (42 : Nat)) :
        Vec × ℚ × Bool × Nat).2.2.1 = true ∧
     (([0, 2, 2], (5 : ℚ), true, (42 : Nat)) :
        Vec × ℚ × Bool × Nat).2.2.2 = 42) :=
  ⟨rfl,
   step_reward_terminal_info_passthrough demoCfg ⟨some [1, 1], [], [], true⟩
     (.disc 0) ([2, 2], 5, true, 42) ([0, 2, 2], 5, true, 42) rfl⟩

/-- **C9** — For a discrete action space of size `n = action_dim`, action
index `i < n` converts to the length-`n` vector with `1.0` at position `i`
and `0.0` elsewhere; for a continuous action space the action vector is
recorded unchanged. -/
theorem convertAction_spec (cfg : Config) (i : Nat) (v : Vec) :
    (cfg.is_discrete_action = true → i < cfg.action_dim →
      convertAction cfg (.disc i) = .ok (oneHot cfg.action_dim i) ∧
      (oneHot cfg.action_dim i).length = cfg.action_dim ∧
      (∀ j, (hj : j < cfg.action_dim) →
        (oneHot cfg.action_dim i).get ⟨j, by simp [oneHot]; omega⟩ =
          if j = i then 1 else 0)) ∧
    (cfg.is_discrete_action = false → convertAction cfg (.cont v) = .ok v) := by
  constructor
  · intro hd hi
    refine ⟨by simp [convertAction, hd, hi], by simp [oneHot], ?_⟩
    intro j hj
    simp [oneHot]
  · intro hd
    simp [convertAction, hd]

/-- Witness for C9: discrete conversion at `demoCfg` (`n = 2`, `i = 0`) and
continuous pass-through at a box-space configuration. -/
theorem convertAction_spec_witness :
    (convertAction demoCfg (.disc 0) = .ok (oneHot demoCfg.action_dim 0) ∧
      (oneHot demoCfg.action_dim 0).length = demoCfg.action_dim ∧
      (∀ j, (hj : j < demoCfg.action_dim) →
        (oneHot demoCfg.action_dim 0).get ⟨j, by simp [oneHot]; omega⟩ =
          if j = 0 then 1 else 0)) ∧
    convertAction
        { demoCfg with is_discrete_action := false } (.cont [3, 4]) =
      .ok [3, 4] :=
  ⟨(convertAction_spec demoCfg 0 [3, 4]).1 rfl (by decide),
   (convertAction_spec { demoCfg with is_discrete_action := false } 0 [3, 4]).2 rfl⟩

/-- **C8** — In every adapter state reachable by any sequence of `reset()`
and `step()` calls, the observation and action history deques have equal
length; and on a length mismatch `embed_state` fails with the assertion
error instead of producing an embedding, leaving the mode flag untouched. -/
theorem buffer_length_invariant (cfg : Config) :
    (∀ s : AdapterState, Reachable cfg s →
      s.recent_states.length = s.recent_actions.length) ∧
    (∀ (mode : Bool) (rs ra : Mat) (st : Vec), rs.length ≠ ra.length →
      embed_state cfg mode rs ra st = (.error "AssertionError", mode)) := by
  constructor
  · intro s hs
    induction hs with
    | init m => rfl
    | reset_step hs innerObs ih => simp [reset]
    | env_step hs a inner ih =>
        rename_i t
        rcases ha : convertAction cfg a with e | anp
        · simpa [step, ha] using ih
        · rcases hcur : t.cur_raw_state with _ | cur
          · simpa [step, ha, hcur] using ih
          · rw [step_eq inner hcur ha]
            simp [length_dequeAppend, ih]
  · intro mode rs ra st hne
    unfold embed_state
    rw [if_neg hne]

/-- Witness for C8: the state after `reset` and one `step` satisfies the
invariant; a mismatched pair of buffers makes `embed_state` fail the
assertion. -/
theorem buffer_length_invariant_witness :
    ((step demoCfg (reset demoCfg ⟨none, [], [], true⟩ [1, 1]).1 (.disc 0)
        ([2, 2], 0, false, ())).1.recent_states.length =
      (step demoCfg (reset demoCfg ⟨none, [], [], true⟩ [1, 1]).1 (.disc 0)
        ([2, 2], 0, false, ())).1.recent_actions.length) ∧
    embed_state demoCfg true [[0, 0]] [] [0, 0] =
      (.error "AssertionError", true) :=
  ⟨(buffer_length_invariant demoCfg).1 _
     (Reachable.env_step (Reachable.reset_step (Reachable.init true) [1, 1])
       (.disc 0) ([2, 2], 0, false, ())),
   (buffer_length_invariant demoCfg).2 true [[0, 0]] [] [0, 0] (by decide)⟩

/-- **C3 counterexample** — Under the claim's literal scenario — `reset()`
followed by *three* steps whose inner observations are `[1, 1]`, `[2, 2]`,
`[3, 3]` (inner reset observation `[0, 0]`) — the buffer holds three pairs,
including the pair for the reset observation, not "exactly the pairs for
`[1, 1]` and `[2, 2]`": each step appends the state the action was taken
*from*, so the reset observation is appended by the first step. -/
theorem trace_three_steps_buffer :
    traceClaim3.recent_states = [[0, 0], [1, 1], [2, 2]] ∧
    traceClaim3.recent_actions = [oneHot 2 0, oneHot 2 0, oneHot 2 0] ∧
    traceClaim3.recent_states ≠ [[1, 1], [2, 2]] := by
  refine ⟨by decide, by decide, by decide⟩

/-- **C3 (amended)** — For every `step(action)` call in the Active state
with a convertible action, the pair `(CurrentRawState, convertedAction)` is
appended to the history buffer, and the embedding is computed from the
buffer that includes this just-appended pair but no pair for the resulting
observation; hence after `reset()` returning inner observation `[1, 1]`
followed by *two* steps with inner observations `[2, 2]`, `[3, 3]`
(`max_embed_seq_len = 3`, discrete actions), the buffer holds exactly the
pairs for `[1, 1]` and `[2, 2]`, each with the one-hot converted action
`[1, 0]`, and `[3, 3]` is the CurrentRawState not yet appended. -/
theorem step_appends_current_state_before_embed :
    (∀ {I : Type} (cfg : Config) (s : AdapterState) (a : GymAction)
        (inner : Vec × ℚ × Bool × I) (cur anp : Vec),
      s.cur_raw_state = some cur → convertAction cfg a = .ok anp →
      (step cfg s a inner).1.recent_states =
        dequeAppend cfg.max_embed_seq_len s.recent_states cur ∧
      (step cfg s a inner).1.recent_actions =
        dequeAppend cfg.max_embed_seq_len s.recent_actions anp ∧
      (∀ v, (embed_state cfg s.mode
          (dequeAppend cfg.max_embed_seq_len s.recent_states cur)
          (dequeAppend cfg.max_embed_seq_len s.recent_actions anp) inner.1).1 =
            .ok v →
        (step cfg s a inner).2 = .ok (v, inner.2.1, inner.2.2.1, inner.2.2.2))) ∧
    traceAmended3.recent_states = [[1, 1], [2, 2]] ∧
    traceAmended3.recent_actions = [oneHot 2 0, oneHot 2 0] ∧
    oneHot 2 0 = [1, 0] ∧
    traceAmended3.cur_raw_state = some [3, 3] := by
  refine ⟨?_, by decide, by decide, by decide, by decide⟩
  intro I cfg s a inner cur anp hcur ha
  rw [step_eq inner hcur ha]
  refine ⟨rfl, rfl, ?_⟩
  intro v hv
  simp only [hv]

/-- Witness for C3 (amended): the general part applied to the first step of
the amended trace. -/
theorem step_appends_current_state_before_embed_witness :
    ((step demoCfg ⟨some [1, 1], [], [], true⟩ (.disc 0)
        (([2, 2], 0, false, ()) : Vec × ℚ × Bool × Unit)).1.recent_states =
      dequeAppend demoCfg.max_embed_seq_len [] [1, 1] ∧
    (step demoCfg ⟨some [1, 1], [], [], true⟩ (.disc 0)
        (([2, 2], 0, false, ()) : Vec × ℚ × Bool × Unit)).1.recent_actions =
      dequeAppend demoCfg.max_embed_seq_len [] (oneHot demoCfg.action_dim 0) ∧
    (∀ v, (embed_state demoCfg true
        (dequeAppend demoCfg.max_embed_seq_len [] [1, 1])
        (dequeAppend demoCfg.max_embed_seq_len [] (oneHot demoCfg.action_dim 0))
        [2, 2]).1 = .ok v →
      (step demoCfg ⟨some [1, 1], [], [], true⟩ (.disc 0)
          (([2, 2], 0, false, ()) : Vec × ℚ × Bool × Unit)).2 =
        .ok (v, 0, false, ()))) :=
  step_appends_current_state_before_embed.1 demoCfg
    ⟨some [1, 1], [], [], true⟩ (.disc 0) ([2, 2], 0, false, ())
    [1, 1] (oneHot demoCfg.action_dim 0) rfl rfl

end StateEmbedEnv
